import Mathlib

/-!
Shallow embedding of the proj4rs coordinate-reprojection core:
the error taxonomy (errors.rs), the Lambert Conformal Conic projection
(projections/lcc.rs) and the geometry traversal adaptors
(adaptors/geo_types.rs).  Floating-point `f64` arithmetic is embedded as
real arithmetic; `Result<T>` as `Except Error T`; the `&mut` init context
and `&mut self` traversals as explicit state passing.
-/

namespace Proj4rs

open scoped Real

/-- errors.rs: the crate's closed error enumeration. -/
inductive Error where
  | InputStringError (msg : String)
  | NoValueParameter
  | ParameterValueError
  | MissingProjectionError
  | InvalidDatum
  | InvalidEllipsoid
  | InvalidParameterValue (msg : String)
  | LatitudeOutOfRange
  | NoNADGridAvailable
  | InvalidToWGS84String
  | InvalidAxis
  | UnrecognizedFormat
  | LatOrLongExceedLimit
  | NanCoordinateValue
  | CoordinateOutOfRange
  | ProjectionNotFound
  | NoForwardProjectionDefined
  | NoInverseProjectionDefined
  | ProjErrConicLatEqual
  | ToleranceConditionError
  | NonInvPhi2Convergence
deriving DecidableEq, Repr

/-- errors.rs: `pub type Result<T> = std::result::Result<T, Error>`. -/
abbrev Result (α : Type) := Except Error α

/-- Modelled from the spec: consts.rs (missing from src/), tolerance `EPS_10 = 1e-10`. -/
def EPS_10 : ℝ := 1e-10

/-- Modelled from the spec: consts.rs (missing from src/), `FRAC_PI_2` = π/2. -/
noncomputable def FRAC_PI_2 : ℝ := Real.pi / 2

/-- Modelled from the spec: consts.rs (missing from src/), `FRAC_PI_4` = π/4. -/
noncomputable def FRAC_PI_4 : ℝ := Real.pi / 4

/-- Modelled from the spec: the Ellipsoid record
`{a (semi-major axis), b, es (eccentricity²), e, ra (1/a), f}` (its module
is missing from src/); immutable geometric constants. -/
structure Ellipsoid where
  a : ℝ
  b : ℝ
  es : ℝ
  e : ℝ
  ra : ℝ
  f : ℝ

/-- Modelled from the spec: parameters.rs ParamList (missing from src/);
the core only needs the typed lookup
`try_angular_value(name) -> Result<Option<radians>>`. -/
structure ParamList where
  try_angular_value : String → Result (Option ℝ)

/-- Modelled from the spec: proj.rs ProjData (missing from src/), the mutable
init context holding the reference latitude `phi0`, the scale factor `k0`
and the ellipsoid reference `ellps`. -/
structure ProjData where
  ellps : Ellipsoid
  phi0 : Option ℝ
  k0 : ℝ

/-- Modelled from the spec: the `phi0()` accessor of the init context,
returning the reference latitude (defaulting to 0 when unset). -/
def ProjData.phi0_value (p : ProjData) : ℝ := p.phi0.getD 0

namespace math

/-- Modelled from the spec: math.rs `msfn` (missing from src/), the meridional
scale factor `msfn(sinphi, cosphi, es) = cosphi / sqrt(1 - es*sinphi²)`. -/
noncomputable def msfn (sinphi cosphi es : ℝ) : ℝ :=
  cosphi / Real.sqrt (1 - es * sinphi ^ 2)

/-- Modelled from the spec: math.rs `tsfn` (missing from src/), the standard
conformal-latitude forward transform
`tan((π/2 - phi)/2) / ((1 - e*sinphi)/(1 + e*sinphi))^(e/2)`. -/
noncomputable def tsfn (phi sinphi e : ℝ) : ℝ :=
  Real.tan ((Real.pi / 2 - phi) / 2) /
    ((1 - e * sinphi) / (1 + e * sinphi)) ^ (e / 2)

/-- Modelled from the spec: the iteration core of math.rs `phi2`
(missing from src/): fixed-point iteration with a bounded iteration count
and per-step tolerance `1e-10`, failing with the convergence error when
the cap is exhausted. -/
noncomputable def phi2_iter (ts e : ℝ) : Nat → ℝ → Result ℝ
  | 0, _ => .error .NonInvPhi2Convergence
  | fuel + 1, phi =>
    let con := e * Real.sin phi
    let dphi :=
      Real.pi / 2 - 2 * Real.arctan (ts * ((1 - con) / (1 + con)) ^ (e / 2)) - phi
    if |dphi| ≤ 1e-10 then .ok (phi + dphi)
    else phi2_iter ts e fuel (phi + dphi)

/-- Modelled from the spec: math.rs `phi2` (missing from src/), the iterative
inverse of `tsfn` with an iteration cap of 15. -/
noncomputable def phi2 (ts e : ℝ) : Result ℝ :=
  phi2_iter ts e 15 (Real.pi / 2 - 2 * Real.arctan ts)

end math

/-- Rust `f64::hypot(x, y)`: the polar radius `sqrt(x² + y²)`. -/
noncomputable def hypot (x y : ℝ) : ℝ := Real.sqrt (x ^ 2 + y ^ 2)

/-- Rust `a.atan2(b)`: the angle of the point `(b, a)` in `(-π, π]`,
embedded as the complex argument of `b + a*i`. -/
noncomputable def atan2 (a b : ℝ) : ℝ := Complex.arg { re := b, im := a }

/-- projections/lcc.rs: the Lambert Conformal Conic projection instance,
frozen after init. -/
structure Projection where
  phi1 : ℝ
  phi2 : ℝ
  n : ℝ
  rho0 : ℝ
  c : ℝ
  ellips : Prop
  e : ℝ
  k0 : ℝ

open Classical in
/-- projections/lcc.rs `Projection::init`: reads `lat_1`/`lat_2`, seeding the
context's `phi0` with `lat_1` when `lat_2` is absent and `phi0` is unset,
rejects equal-and-opposite standard parallels, then derives the cone
constant `n`, the scale `c` and the reference radius `rho0` (ellipsoidal or
spherical closed forms, secant or tangent case).  The `&mut ProjData`
argument becomes a returned updated context. -/
noncomputable def Projection.init (p : ProjData) (params : ParamList) :
    ProjData × Result Projection :=
  match params.try_angular_value "lat_1" with
  | .error err => (p, .error err)
  | .ok o1 =>
    let phi1 := o1.getD 0
    match params.try_angular_value "lat_2" with
    | .error err => (p, .error err)
    | .ok o2 =>
      -- `unwrap_or_else`: the closure runs only when lat_2 is absent,
      -- mutating p.phi0 via `p.phi0 = p.phi0.or(Some(phi1))`.
      let p' := match o2 with
        | some _ => p
        | none => { p with phi0 := p.phi0.or (some phi1) }
      let phi2 := o2.getD phi1
      -- Standard Parallels cannot be equal and on opposite sides of the equator
      if |phi1 + phi2| < EPS_10 then
        (p', .error .ProjErrConicLatEqual)
      else
        let phi0 := p'.phi0_value
        let sinphi := Real.sin phi1
        let cosphi := Real.cos phi1
        let secant := |phi1 - phi2| ≥ EPS_10
        let el := p'.ellps
        let ellips := el.es ≠ 0
        let ncr :=
          if ellips then
            let m1 := math.msfn sinphi cosphi el.es
            let ml1 := math.tsfn phi1 sinphi el.e
            -- secant zone
            let n :=
              if secant then
                let sinphi2 := Real.sin phi2
                Real.log (m1 / math.msfn sinphi2 (Real.cos phi2) el.es) /
                  Real.log (ml1 / math.tsfn phi2 sinphi2 el.e)
              else sinphi
            let c := m1 * ml1 ^ (-n) / n
            let rho0 :=
              if |(|phi0| - FRAC_PI_2)| < EPS_10 then 0
              else c * math.tsfn phi0 (Real.sin phi0) el.e ^ n
            (n, c, rho0)
          else
            let n :=
              if secant then
                Real.log (cosphi / Real.cos phi2) /
                  Real.log (Real.tan (FRAC_PI_4 + 0.5 * phi2) /
                    Real.tan (FRAC_PI_4 + 0.5 * phi1))
              else sinphi
            let c := cosphi * Real.tan (FRAC_PI_4 + 0.5 * phi1) ^ n / n
            let rho0 :=
              if |(|phi0| - FRAC_PI_2)| < EPS_10 then 0
              else c * Real.tan (FRAC_PI_4 + 0.5 * phi0) ^ (-n)
            (n, c, rho0)
        (p', .ok { phi1 := phi1, phi2 := phi2, n := ncr.1, rho0 := ncr.2.2,
                   c := ncr.2.1, ellips := ellips, e := el.e, k0 := p'.k0 })

open Classical in
/-- projections/lcc.rs `Projection::forward`: near a pole (`|phi|` within
`EPS_10` of π/2) either fails with the tolerance-condition error (when
`phi * n ≤ 0`) or takes `rho = 0`; elsewhere derives `rho` from `tsfn`
raised to `n` (ellipsoidal) or the half-angle tangent formula (spherical);
returns `(k0*rho*sin(lam*n), k0*(rho0 - rho*cos(lam*n)), z)`. -/
noncomputable def Projection.forward (self : Projection) (lam phi z : ℝ) :
    Result (ℝ × ℝ × ℝ) :=
  let rhoRes : Result ℝ :=
    if |(|phi| - FRAC_PI_2)| < EPS_10 then
      if phi * self.n ≤ 0 then .error .ToleranceConditionError
      else .ok 0
    else
      .ok (self.c *
        (if self.ellips then math.tsfn phi (Real.sin phi) self.e ^ self.n
         else Real.tan (FRAC_PI_4 + 0.5 * phi) ^ (-self.n)))
  match rhoRes with
  | .error err => .error err
  | .ok rho =>
    let lam := lam * self.n
    .ok (self.k0 * (rho * Real.sin lam),
         self.k0 * (self.rho0 - rho * Real.cos lam),
         z)

open Classical in
/-- projections/lcc.rs `Projection::inverse`: descales by `k0`, recenters `y`
against `rho0`, computes `rho = hypot(x, y)`; when `rho ≠ 0` flips the sign
triple for a negative cone constant and recovers latitude via `phi2`
(ellipsoidal) or a closed-form arctangent (spherical) and longitude via
`atan2(x, y) / n`; when `rho = 0` returns longitude 0 and the pole matching
the sign of `n`. -/
noncomputable def Projection.inverse (self : Projection) (x y z : ℝ) :
    Result (ℝ × ℝ × ℝ) :=
  let x := x / self.k0
  let y := y / self.k0
  let y := self.rho0 - y
  let rho := hypot x y
  if rho ≠ 0 then
    let s := if self.n < 0 then (-rho, -x, -y) else (rho, x, y)
    let rho := s.1
    let x := s.2.1
    let y := s.2.2
    let phiRes : Result ℝ :=
      if self.ellips then math.phi2 ((rho / self.c) ^ (1 / self.n)) self.e
      else .ok (2 * Real.arctan ((self.c / rho) ^ (1 / self.n)) - FRAC_PI_2)
    match phiRes with
    | .error err => .error err
    | .ok phi => .ok (atan2 x y / self.n, phi, z)
  else
    .ok (0, if self.n > 0 then FRAC_PI_2 else -FRAC_PI_2, z)

/-- projections/lcc.rs `Projection::has_inverse`. -/
def Projection.has_inverse : Bool := true

/-- projections/lcc.rs `Projection::has_forward`. -/
def Projection.has_forward : Bool := true

/-- geo-types `Coord`: a leaf coordinate pair. -/
structure Coord where
  x : ℝ
  y : ℝ

/-- geo-types `Point`: a single-coordinate wrapper (`Point(Coord)`). -/
structure Point where
  c : Coord

/-- geo-types `MultiPoint`: a sequence of points (`MultiPoint(Vec<Point>)`). -/
abbrev MultiPoint := List Point

/-- geo-types `Line`: a two-point primitive with `start`/`end` coordinates
(the second field is renamed since `end` is reserved in Lean). -/
structure Line where
  start : Coord
  stop : Coord

/-- geo-types `LineString`: a sequence of coordinates (`LineString(Vec<Coord>)`). -/
abbrev LineString := List Coord

/-- Modelled from the spec: transform.rs `TransformClosure` (missing from
src/), the per-coordinate function `(x, y, z) -> Result<(x, y, z)>`,
stateless across invocations. -/
def TransformClosure := ℝ → ℝ → ℝ → Result (ℝ × ℝ × ℝ)

/-- Modelled from the spec: transform.rs `impl Transform for (f64, f64)`
(missing from src/): applies the closure to `(x, y, 0)` and stores the
resulting `x, y` into the pair; `&mut self` becomes a returned pair, and on
error the pair is unchanged. -/
def xyTransform (f : TransformClosure) (xy : ℝ × ℝ) :
    (ℝ × ℝ) × Result Unit :=
  match f xy.1 xy.2 0 with
  | .error err => (xy, .error err)
  | .ok v => ((v.1, v.2.1), .ok ())

/-- adaptors/geo_types.rs `impl Transform for Coord`: copies `(x, y)` into a
tuple, transforms the tuple, and writes it back only on success (the `?`
early-returns before `*self = Coord::from(xy)` runs). -/
def Coord.transform_coordinates (self : Coord) (f : TransformClosure) :
    Coord × Result Unit :=
  match xyTransform f (self.x, self.y) with
  | (_, .error err) => (self, .error err)
  | (xy, .ok _) => ({ x := xy.1, y := xy.2 }, .ok ())

/-- adaptors/geo_types.rs `impl Transform for Point`: delegates to the inner
coordinate. -/
def Point.transform_coordinates (self : Point) (f : TransformClosure) :
    Point × Result Unit :=
  match self.c.transform_coordinates f with
  | (c, r) => ({ c := c }, r)

/-- adaptors/geo_types.rs `impl Transform for MultiPoint`:
`iter_mut().try_for_each(...)` — transforms each point in order, stopping at
the first error; points already visited keep their new values. -/
def MultiPoint.transform_coordinates :
    MultiPoint → TransformClosure → MultiPoint × Result Unit
  | [], _ => ([], .ok ())
  | pt :: rest, f =>
    match pt.transform_coordinates f with
    | (pt2, .error err) => (pt2 :: rest, .error err)
    | (pt2, .ok _) =>
      let tail := MultiPoint.transform_coordinates rest f
      (pt2 :: tail.1, tail.2)

/-- adaptors/geo_types.rs `impl Transform for Line`: copies the endpoints out
via `self.points()`, transforms both, and rebuilds the line with
`Line::new(start, end)` only after both succeed; on error `self` is
unchanged. -/
def Line.transform_coordinates (self : Line) (f : TransformClosure) :
    Line × Result Unit :=
  match Point.transform_coordinates { c := self.start } f with
  | (_, .error err) => (self, .error err)
  | (s, .ok _) =>
    match Point.transform_coordinates { c := self.stop } f with
    | (_, .error err) => (self, .error err)
    | (t, .ok _) => ({ start := s.c, stop := t.c }, .ok ())

/-- adaptors/geo_types.rs `impl Transform for LineString`:
`coords_mut().try_for_each(...)` — transforms each coordinate in order,
stopping at the first error; coordinates already visited keep their new
values. -/
def LineString.transform_coordinates :
    LineString → TransformClosure → LineString × Result Unit
  | [], _ => ([], .ok ())
  | c :: rest, f =>
    match c.transform_coordinates f with
    | (c2, .error err) => (c2 :: rest, .error err)
    | (c2, .ok _) =>
      let tail := LineString.transform_coordinates rest f
      (c2 :: tail.1, tail.2)

/-- A sample spherical ellipsoid used by concrete witnesses. -/
def sampleEllps : Ellipsoid := { a := 1, b := 1, es := 0, e := 0, ra := 1, f := 0 }

/-- A sample init context with `phi0` unset, used by concrete witnesses. -/
def sampleCtx : ProjData := { ellps := sampleEllps, phi0 := none, k0 := 1 }

/-- A concrete parameter list with `lat_1 = 0.5` and `lat_2 = -0.5`. -/
def paramsOpposite : ParamList :=
  ⟨fun name =>
    if name = "lat_1" then .ok (some 0.5)
    else if name = "lat_2" then .ok (some (-0.5))
    else .ok none⟩

/-- A concrete parameter list with `lat_1 = 1` and `lat_2` absent. -/
def paramsLat1Only : ParamList :=
  ⟨fun name => if name = "lat_1" then .ok (some 1) else .ok none⟩

/-- A concrete parameter list with `lat_1 = 0` and `lat_2` absent, making the
equal-and-opposite validation fire after `phi0` has been seeded. -/
def paramsLat1Zero : ParamList :=
  ⟨fun name => if name = "lat_1" then .ok (some 0) else .ok none⟩

/-- A concrete projection instance with cone constant `n = 1`, used by
witnesses. -/
def sampleProj : Projection :=
  { phi1 := 0, phi2 := 0, n := 1, rho0 := 0, c := 1, ellips := False,
    e := 0, k0 := 1 }

/-- A closure that doubles `x` on nonnegative inputs and fails on negative
`x`; used by concrete traversal witnesses. -/
noncomputable def sampleClosure : TransformClosure := fun x y z =>
  if 0 ≤ x then .ok (x + x, y, z) else .error .CoordinateOutOfRange

/-! ## Theorems -/

/-- Helper: the equal-and-opposite validation path of `Projection::init`. -/
theorem init_equal_opposite_aux
    (p : ProjData) (params : ParamList) (o1 o2 : Option ℝ)
    (h1 : params.try_angular_value "lat_1" = .ok o1)
    (h2 : params.try_angular_value "lat_2" = .ok o2)
    (heps : |o1.getD 0 + o2.getD (o1.getD 0)| < EPS_10) :
    (Projection.init p params).2 = .error .ProjErrConicLatEqual := by
  cases o2 with
  | none =>
    simp only [Projection.init, h1, h2, Option.getD_none, Option.getD_some] at *
    rw [if_pos heps]
  | some v =>
    simp only [Projection.init, h1, h2, Option.getD_none, Option.getD_some] at *
    rw [if_pos heps]

/-- C2: for every parameter list whose effective standard parallels `lat_1`
and `lat_2` satisfy `|lat_1 + lat_2| < EPS_10`, `Projection::init` returns
`ProjErrConicLatEqual` and no `Projection` instance is constructed. -/
theorem init_equal_opposite_error
    (p : ProjData) (params : ParamList) (o1 o2 : Option ℝ)
    (h1 : params.try_angular_value "lat_1" = .ok o1)
    (h2 : params.try_angular_value "lat_2" = .ok o2)
    (heps : |o1.getD 0 + o2.getD (o1.getD 0)| < EPS_10) :
    (Projection.init p params).2 = .error .ProjErrConicLatEqual :=
  init_equal_opposite_aux p params o1 o2 h1 h2 heps

/-- Witness for C2: initializing with `lat_1 = 0.5`, `lat_2 = -0.5` (radians)
satisfies `|lat_1 + lat_2| < EPS_10` and yields `ProjErrConicLatEqual`. -/
theorem init_equal_opposite_error_witness :
    |(some (0.5 : ℝ)).getD 0 + (some (-0.5 : ℝ)).getD ((some (0.5 : ℝ)).getD 0)| <
        EPS_10 ∧
    (Projection.init sampleCtx paramsOpposite).2 = .error .ProjErrConicLatEqual := by
  refine ⟨by norm_num [EPS_10], ?_⟩
  exact init_equal_opposite_error sampleCtx paramsOpposite (some 0.5) (some (-0.5))
    rfl rfl (by norm_num [EPS_10])

/-- C5: when `lat_2` is absent, `Projection::init` uses the `lat_1` value for
both parallels, selects the tangent case (`n = sin(phi1)` rather than the
secant derivation), and seeds the init context's `phi0` with the `lat_1`
value when it was not already set (`Option.or` keeps an existing value). -/
theorem init_lat2_absent_tangent
    (p : ProjData) (params : ParamList) (o1 : Option ℝ)
    (h1 : params.try_angular_value "lat_1" = .ok o1)
    (h2 : params.try_angular_value "lat_2" = .ok none) :
    (Projection.init p params).1 =
      { p with phi0 := p.phi0.or (some (o1.getD 0)) } ∧
    ∀ proj, (Projection.init p params).2 = .ok proj →
      proj.phi1 = o1.getD 0 ∧ proj.phi2 = o1.getD 0 ∧
      proj.n = Real.sin (o1.getD 0) := by
  have hsec : ¬ |o1.getD 0 - o1.getD 0| ≥ EPS_10 := by
    rw [sub_self, abs_zero]
    norm_num [EPS_10]
  constructor
  · simp only [Projection.init, h1, h2, Option.getD_none, Option.getD_some]
    split <;> rfl
  · intro proj hproj
    simp only [Projection.init, h1, h2, Option.getD_none, Option.getD_some] at hproj
    by_cases heps : |o1.getD 0 + o1.getD 0| < EPS_10
    · rw [if_pos heps] at hproj
      exact absurd hproj (by simp)
    · rw [if_neg heps] at hproj
      rw [if_neg hsec, if_neg hsec] at hproj
      split at hproj <;>
        (injection hproj with hv; subst hv; exact ⟨rfl, rfl, rfl⟩)

/-- Witness for C5: with `lat_1 = 1` radian and `lat_2` absent, init on a
context with unset `phi0` seeds `phi0 = some 1`. -/
theorem init_lat2_absent_tangent_witness :
    (Projection.init sampleCtx paramsLat1Only).1 =
      { sampleCtx with phi0 := sampleCtx.phi0.or (some ((some (1 : ℝ)).getD 0)) } :=
  (init_lat2_absent_tangent sampleCtx paramsLat1Only (some 1) rfl rfl).1

/-- C10: `Projection::init` can mutate the shared init context even when it
subsequently fails: with `lat_2` absent and `phi0` unset, `phi0` is seeded
with the `lat_1` value before the equal-and-opposite validation, so the
error path still leaves `phi0` set; and no call of init modifies the
context's other fields (`k0`, `ellps`). -/
theorem init_mutates_ctx_on_failure
    (p : ProjData) (params : ParamList) (o1 : Option ℝ)
    (h1 : params.try_angular_value "lat_1" = .ok o1)
    (h2 : params.try_angular_value "lat_2" = .ok none)
    (h3 : p.phi0 = none) :
    (∀ (q : ProjData) (ps : ParamList),
        ((Projection.init q ps).1).k0 = q.k0 ∧
        ((Projection.init q ps).1).ellps = q.ellps) ∧
    ((Projection.init p params).1).phi0 = some (o1.getD 0) ∧
    (|o1.getD 0 + o1.getD 0| < EPS_10 →
      (Projection.init p params).2 = .error .ProjErrConicLatEqual) := by
  refine ⟨?_, ?_, ?_⟩
  · intro q ps
    cases hq1 : ps.try_angular_value "lat_1" with
    | error err => simp [Projection.init, hq1]
    | ok o1' =>
      cases hq2 : ps.try_angular_value "lat_2" with
      | error err => simp [Projection.init, hq1, hq2]
      | ok o2' =>
        cases o2' with
        | none =>
          simp only [Projection.init, hq1, hq2]
          constructor <;> (split <;> rfl)
        | some v =>
          simp only [Projection.init, hq1, hq2]
          constructor <;> (split <;> rfl)
  · simp only [Projection.init, h1, h2]
    split <;> simp [h3]
  · intro heps
    exact init_equal_opposite_aux p params o1 none h1 h2
      (by simpa using heps)

/-- Witness for C10: with `lat_1 = 0`, `lat_2` absent and `phi0` unset, init
fails with `ProjErrConicLatEqual` yet has seeded `phi0 = some 0`. -/
theorem init_mutates_ctx_on_failure_witness :
    ((Projection.init sampleCtx paramsLat1Zero).1).phi0 =
      some ((some (0 : ℝ)).getD 0) ∧
    (Projection.init sampleCtx paramsLat1Zero).2 =
      .error .ProjErrConicLatEqual := by
  have h := init_mutates_ctx_on_failure sampleCtx paramsLat1Zero (some 0) rfl rfl rfl
  exact ⟨h.2.1, h.2.2 (by norm_num [EPS_10])⟩

/-- C3: for every LCC projection instance and input with `|phi|` within
`EPS_10` of π/2, `forward` fails with `ToleranceConditionError` exactly when
the pole's sign does not agree with the cone constant's sign
(`¬ 0 < phi * n`), and otherwise returns the pole point computed with
`rho = 0`. -/
theorem forward_pole (P : Projection) (lam phi z : ℝ)
    (hpole : |(|phi| - FRAC_PI_2)| < EPS_10) :
    (P.forward lam phi z = .error .ToleranceConditionError ↔ ¬ 0 < phi * P.n) ∧
    (0 < phi * P.n →
      P.forward lam phi z =
        .ok (P.k0 * ((0 : ℝ) * Real.sin (lam * P.n)),
             P.k0 * (P.rho0 - (0 : ℝ) * Real.cos (lam * P.n)), z)) := by
  by_cases hs : phi * P.n ≤ 0
  · constructor
    · simp only [Projection.forward, if_pos hpole, if_pos hs]
      simpa using not_lt.mpr hs
    · intro hpos
      exact absurd hpos (not_lt.mpr hs)
  · constructor
    · have hpos := not_le.mp hs
      simp only [Projection.forward, if_pos hpole, if_neg hs]
      simp [hpos]
    · intro _
      simp only [Projection.forward, if_pos hpole, if_neg hs]

/-- Witness for C3: at `phi = π/2` (exactly the pole, so within `EPS_10`) and
`n = 1 > 0`, `forward` returns the pole point with `rho = 0`. -/
theorem forward_pole_witness :
    |(|FRAC_PI_2| - FRAC_PI_2)| < EPS_10 ∧
    sampleProj.forward 0 FRAC_PI_2 0 =
      .ok (sampleProj.k0 * ((0 : ℝ) * Real.sin (0 * sampleProj.n)),
           sampleProj.k0 * (sampleProj.rho0 - (0 : ℝ) * Real.cos (0 * sampleProj.n)),
           0) := by
  have hhalf : (0 : ℝ) < FRAC_PI_2 := by
    unfold FRAC_PI_2
    positivity
  have hpole : |(|FRAC_PI_2| - FRAC_PI_2)| < EPS_10 := by
    rw [abs_of_pos hhalf, sub_self, abs_zero]
    norm_num [EPS_10]
  have hpos : (0 : ℝ) < FRAC_PI_2 * sampleProj.n := by
    simp only [sampleProj, mul_one]
    exact hhalf
  exact ⟨hpole, (forward_pole sampleProj 0 FRAC_PI_2 0 hpole).2 hpos⟩

/-- C4: for every LCC projection instance, when the descaled, recentered
polar radius `rho = hypot(x, y)` is exactly zero, `inverse` succeeds and
returns longitude 0 and the pole whose sign matches the cone constant's
sign (π/2 if `n > 0`, `-π/2` otherwise). -/
theorem inverse_rho_zero (P : Projection) (x y z : ℝ)
    (h : hypot (x / P.k0) (P.rho0 - y / P.k0) = 0) :
    P.inverse x y z =
      .ok (0, if P.n > 0 then FRAC_PI_2 else -FRAC_PI_2, z) := by
  simp only [Projection.inverse, h]
  simp

/-- Witness for C4: on the sample projection (`k0 = 1`, `rho0 = 0`, `n = 1`),
the input `(0, 0, 0)` has `rho = 0` and `inverse` returns `(0, π/2, 0)`. -/
theorem inverse_rho_zero_witness :
    hypot ((0 : ℝ) / sampleProj.k0) (sampleProj.rho0 - 0 / sampleProj.k0) = 0 ∧
    sampleProj.inverse 0 0 0 =
      .ok (0, if sampleProj.n > 0 then FRAC_PI_2 else -FRAC_PI_2, 0) := by
  have h : hypot ((0 : ℝ) / sampleProj.k0) (sampleProj.rho0 - 0 / sampleProj.k0) = 0 := by
    rw [sampleProj]
    norm_num [hypot]
  exact ⟨h, inverse_rho_zero sampleProj 0 0 0 h⟩

/-- Helper: a coordinate whose closure invocation fails is left unchanged
(the write-back happens only on success). -/
theorem coord_unchanged_of_error (c : Coord) (f : TransformClosure) (e : Error)
    (h : (c.transform_coordinates f).2 = .error e) :
    c.transform_coordinates f = (c, .error e) := by
  unfold Coord.transform_coordinates at *
  rcases hxy : xyTransform f (c.x, c.y) with ⟨xy, r⟩
  cases r with
  | error err => simp_all
  | ok u => simp_all

/-- Helper: a point whose closure invocation fails is left unchanged. -/
theorem point_unchanged_of_error (pt : Point) (f : TransformClosure) (e : Error)
    (h : (pt.transform_coordinates f).2 = .error e) :
    pt.transform_coordinates f = (pt, .error e) := by
  unfold Point.transform_coordinates at *
  have h2 : (pt.c.transform_coordinates f).2 = .error e := by
    rcases hq : pt.c.transform_coordinates f with ⟨c2, r⟩
    rw [hq] at h
    simpa using h
  rw [coord_unchanged_of_error pt.c f e h2]

/-- Helper: fail-fast traversal of a point list. -/
theorem multiPoint_fail_fast_aux (f : TransformClosure)
    (pre pre' : List Point) (c : Point) (post : List Point) (e : Error)
    (hpre : List.Forall₂ (fun a b => a.transform_coordinates f = (b, .ok ())) pre pre')
    (hc : (c.transform_coordinates f).2 = .error e) :
    MultiPoint.transform_coordinates (pre ++ c :: post) f =
      (pre' ++ c :: post, .error e) := by
  induction hpre with
  | nil =>
    simp only [List.nil_append, MultiPoint.transform_coordinates,
      point_unchanged_of_error c f e hc]
  | cons h₁ h₂ ih =>
    simp only [List.cons_append, MultiPoint.transform_coordinates, h₁,
      List.append_eq, ih]

/-- Helper: fail-fast traversal of a coordinate list. -/
theorem lineString_fail_fast_aux (f : TransformClosure)
    (pre pre' : List Coord) (c : Coord) (post : List Coord) (e : Error)
    (hpre : List.Forall₂ (fun a b => a.transform_coordinates f = (b, .ok ())) pre pre')
    (hc : (c.transform_coordinates f).2 = .error e) :
    LineString.transform_coordinates (pre ++ c :: post) f =
      (pre' ++ c :: post, .error e) := by
  induction hpre with
  | nil =>
    simp only [List.nil_append, LineString.transform_coordinates,
      coord_unchanged_of_error c f e hc]
  | cons h₁ h₂ ih =>
    simp only [List.cons_append, LineString.transform_coordinates, h₁,
      List.append_eq, ih]

/-- C7: `MultiPoint` and `LineString` traversal is fail-fast: the closure is
applied to the leaves in order, the first failing leaf aborts the whole
traversal returning that same error, leaves visited before it keep their
mutated values, and no successful truncated result is returned. -/
theorem traversal_fail_fast (f : TransformClosure)
    (preP pre'P : List Point) (cP : Point) (postP : List Point) (eP : Error)
    (hpreP : List.Forall₂ (fun a b => a.transform_coordinates f = (b, .ok ())) preP pre'P)
    (hcP : (cP.transform_coordinates f).2 = .error eP)
    (preC pre'C : List Coord) (cC : Coord) (postC : List Coord) (eC : Error)
    (hpreC : List.Forall₂ (fun a b => a.transform_coordinates f = (b, .ok ())) preC pre'C)
    (hcC : (cC.transform_coordinates f).2 = .error eC) :
    MultiPoint.transform_coordinates (preP ++ cP :: postP) f =
      (pre'P ++ cP :: postP, .error eP) ∧
    LineString.transform_coordinates (preC ++ cC :: postC) f =
      (pre'C ++ cC :: postC, .error eC) :=
  ⟨multiPoint_fail_fast_aux f preP pre'P cP postP eP hpreP hcP,
   lineString_fail_fast_aux f preC pre'C cC postC eC hpreC hcC⟩

/-- Witness for C7: transforming `[(1,2), (-1,0)]` with the sample closure
mutates the first leaf to `(2,2)`, fails on the second, and returns the
error with the first leaf's mutation kept, for both `MultiPoint` and
`LineString`. -/
theorem traversal_fail_fast_witness :
    Point.transform_coordinates ⟨⟨1, 2⟩⟩ sampleClosure = (⟨⟨2, 2⟩⟩, .ok ()) ∧
    (Point.transform_coordinates ⟨⟨-1, 0⟩⟩ sampleClosure).2 =
      .error .CoordinateOutOfRange ∧
    MultiPoint.transform_coordinates [⟨⟨1, 2⟩⟩, ⟨⟨-1, 0⟩⟩] sampleClosure =
      ([⟨⟨2, 2⟩⟩, ⟨⟨-1, 0⟩⟩], .error .CoordinateOutOfRange) ∧
    LineString.transform_coordinates [⟨1, 2⟩, ⟨-1, 0⟩] sampleClosure =
      ([⟨2, 2⟩, ⟨-1, 0⟩], .error .CoordinateOutOfRange) := by
  have hokc : Coord.transform_coordinates ⟨1, 2⟩ sampleClosure = (⟨2, 2⟩, .ok ()) := by
    norm_num [Coord.transform_coordinates, xyTransform, sampleClosure]
  have herrc : (Coord.transform_coordinates ⟨-1, 0⟩ sampleClosure).2 =
      .error .CoordinateOutOfRange := by
    norm_num [Coord.transform_coordinates, xyTransform, sampleClosure]
  have hokp : Point.transform_coordinates ⟨⟨1, 2⟩⟩ sampleClosure =
      (⟨⟨2, 2⟩⟩, .ok ()) := by
    simp [Point.transform_coordinates, hokc]
  have herrp : (Point.transform_coordinates ⟨⟨-1, 0⟩⟩ sampleClosure).2 =
      .error .CoordinateOutOfRange := by
    simp [Point.transform_coordinates]
    rcases hq : Coord.transform_coordinates ⟨-1, 0⟩ sampleClosure with ⟨c2, r⟩
    rw [hq] at herrc
    simp_all
  have h := traversal_fail_fast sampleClosure
    [⟨⟨1, 2⟩⟩] [⟨⟨2, 2⟩⟩] ⟨⟨-1, 0⟩⟩ [] .CoordinateOutOfRange
    (List.Forall₂.cons hokp List.Forall₂.nil) herrp
    [⟨1, 2⟩] [⟨2, 2⟩] ⟨-1, 0⟩ [] .CoordinateOutOfRange
    (List.Forall₂.cons hokc List.Forall₂.nil) herrc
  exact ⟨hokp, herrp, h.1, h.2⟩

/-- C8: the transform is deterministic — two runs on the same input are
equal — and transforming a `MultiPoint` of `n` identical coordinates yields
`n` identical outputs, each equal to the single-coordinate result. -/
theorem transform_deterministic (f : TransformClosure) (pt pt' : Point) (n : ℕ)
    (h : pt.transform_coordinates f = (pt', .ok ())) :
    MultiPoint.transform_coordinates (List.replicate n pt) f =
      MultiPoint.transform_coordinates (List.replicate n pt) f ∧
    MultiPoint.transform_coordinates (List.replicate n pt) f =
      (List.replicate n pt', .ok ()) := by
  refine ⟨rfl, ?_⟩
  induction n with
  | zero => simp [MultiPoint.transform_coordinates, List.replicate]
  | succ k ih =>
    simp only [List.replicate_succ, MultiPoint.transform_coordinates, h, ih]

/-- Witness for C8: three copies of `(1,2)` all map to `(2,2)`, the
single-coordinate result. -/
theorem transform_deterministic_witness :
    Point.transform_coordinates ⟨⟨1, 2⟩⟩ sampleClosure = (⟨⟨2, 2⟩⟩, .ok ()) ∧
    MultiPoint.transform_coordinates (List.replicate 3 ⟨⟨1, 2⟩⟩) sampleClosure =
      (List.replicate 3 ⟨⟨2, 2⟩⟩, .ok ()) := by
  have hokc : Coord.transform_coordinates ⟨1, 2⟩ sampleClosure = (⟨2, 2⟩, .ok ()) := by
    norm_num [Coord.transform_coordinates, xyTransform, sampleClosure]
  have hokp : Point.transform_coordinates ⟨⟨1, 2⟩⟩ sampleClosure =
      (⟨⟨2, 2⟩⟩, .ok ()) := by
    simp [Point.transform_coordinates, hokc]
  exact ⟨hokp, (transform_deterministic sampleClosure ⟨⟨1, 2⟩⟩ ⟨⟨2, 2⟩⟩ 3 hokp).2⟩

/-- C9: a `Line` whose closure fails on either endpoint is returned
completely unchanged together with that error — the line is rebuilt from the
two independently transformed endpoint copies only after both succeed. -/
theorem line_transform_atomic (f : TransformClosure) (l : Line) (e : Error)
    (h : (Point.transform_coordinates ⟨l.start⟩ f).2 = .error e ∨
         ((∃ s, Point.transform_coordinates ⟨l.start⟩ f = (s, .ok ())) ∧
          (Point.transform_coordinates ⟨l.stop⟩ f).2 = .error e)) :
    l.transform_coordinates f = (l, .error e) := by
  rcases h with hstart | ⟨⟨s, hs⟩, hstop⟩
  · unfold Line.transform_coordinates
    rw [point_unchanged_of_error ⟨l.start⟩ f e hstart]
  · unfold Line.transform_coordinates
    rw [hs, point_unchanged_of_error ⟨l.stop⟩ f e hstop]

/-- Witness for C9: a line from `(1,2)` to `(-1,0)` whose second endpoint
fails is returned unchanged with the error. -/
theorem line_transform_atomic_witness :
    ((∃ s, Point.transform_coordinates ⟨(⟨1, 2⟩ : Coord)⟩ sampleClosure =
        (s, .ok ())) ∧
     (Point.transform_coordinates ⟨(⟨-1, 0⟩ : Coord)⟩ sampleClosure).2 =
        .error .CoordinateOutOfRange) ∧
    Line.transform_coordinates ⟨⟨1, 2⟩, ⟨-1, 0⟩⟩ sampleClosure =
      (⟨⟨1, 2⟩, ⟨-1, 0⟩⟩, .error .CoordinateOutOfRange) := by
  have hokc : Coord.transform_coordinates ⟨1, 2⟩ sampleClosure = (⟨2, 2⟩, .ok ()) := by
    norm_num [Coord.transform_coordinates, xyTransform, sampleClosure]
  have herrc : (Coord.transform_coordinates ⟨-1, 0⟩ sampleClosure).2 =
      .error .CoordinateOutOfRange := by
    norm_num [Coord.transform_coordinates, xyTransform, sampleClosure]
  have hokp : Point.transform_coordinates ⟨(⟨1, 2⟩ : Coord)⟩ sampleClosure =
      (⟨⟨2, 2⟩⟩, .ok ()) := by
    simp [Point.transform_coordinates, hokc]
  have herrp : (Point.transform_coordinates ⟨(⟨-1, 0⟩ : Coord)⟩ sampleClosure).2 =
      .error .CoordinateOutOfRange := by
    simp [Point.transform_coordinates]
    rcases hq : Coord.transform_coordinates ⟨-1, 0⟩ sampleClosure with ⟨c2, r⟩
    rw [hq] at herrc
    simp_all
  refine ⟨⟨⟨⟨⟨2, 2⟩⟩, hokp⟩, herrp⟩, ?_⟩
  exact line_transform_atomic sampleClosure ⟨⟨1, 2⟩, ⟨-1, 0⟩⟩ .CoordinateOutOfRange
    (Or.inr ⟨⟨⟨⟨2, 2⟩⟩, hokp⟩, herrp⟩)

end Proj4rs
